import Mathlib

/-!
Verification development for the `id` mode of the shellfish tool
(`cmd/id.go`).  The Go code is shallowly embedded: the configuration
struct, its validation, ID resolution (`getIDs`, `convertSortedIDs`),
the overlap-exclusion pass (`findOverlapSubs`), and the output
assembly of `Run` are translated to executable Lean definitions.
Collaborator packages that are not part of the translated source
(`memo`, `halo`, `catalog`, `parse`) are modelled from the design
specification; each such definition is marked `Modelled from the
spec:` in its doc comment.
-/

namespace Shellfish

/-- A halo record: id, position, radius.  Catalogs are kept in
descending-mass order, so the list position of a halo is its mass
rank (spec §3: SortedIDList). -/
structure Halo where
  id : Int
  x : ℚ
  y : ℚ
  z : ℚ
  r : ℚ
deriving DecidableEq

/-- The simulation environment seen through the memo/cache layer: the
periodic box width from the snapshot headers and, per snapshot, the
halo catalog in descending-mass order. -/
structure Env where
  width : ℚ
  catalog : Int → List Halo

/-- The typed errors returned by the embedded code (Go returns them as
`error` values built with `fmt.Errorf`). -/
inductive IDError where
  | badIDType (s : String)
  | badStrategy (s : String)
  | nonPositiveRadiusMult (q : ℚ)
  | idsNotSet
  | idStartNotSet
  | idEndNotSet
  | idEndLtStart (idEnd idStart : Int)
  | snapNotSet
  | badSnap (snap : Int)
  | badMult (mult : Int)
  | snapVarNotSet
  | snapOutOfBounds (snap snapMin snapMax : Int)
  | rangeError (maxID : Int) (size : Nat)
  | idNotInHaloList (id : Int)
deriving DecidableEq

/-- Result of a Go computation: a value, a returned error, or a
runtime panic (Go panics are not returned errors). -/
inductive Outcome (α : Type) where
  | ok (a : α) : Outcome α
  | err (e : IDError) : Outcome α
  | crash (msg : String) : Outcome α
deriving DecidableEq

/-- `IDConfig` from `cmd/id.go`: the configuration fields of the `id`
mode.  `exclusionRadiusMult` is a Go `float64`, modelled as `ℚ`. -/
structure IDConfig where
  idType : String
  ids : List Int
  idStart : Int
  idEnd : Int
  snap : Int
  mult : Int
  exclusionStrategy : String
  exclusionRadiusMult : ℚ
deriving DecidableEq

/-- A parsed `id.config` file: each field is present or absent.
`ReadConfig` registers a default for every variable. -/
structure ConfigFile where
  idType : Option String
  ids : Option (List Int)
  idStart : Option Int
  idEnd : Option Int
  snap : Option Int
  mult : Option Int
  exclusionStrategy : Option String
  exclusionRadiusMult : Option ℚ

/-- Modelled from the spec: `parse.NewConfigVars`/`parse.ReadConfig`
(the `parse` package is not part of the translated source).  Each
registered variable takes the file's value when present and the
default passed at registration otherwise; the defaults are the ones
registered in `ReadConfig` of `cmd/id.go` (lines 94-101). -/
def applyFile (f : ConfigFile) : IDConfig :=
  { idType := f.idType.getD "m200m"
  , ids := f.ids.getD []
  , idStart := f.idStart.getD (-1)
  , idEnd := f.idEnd.getD (-1)
  , snap := f.snap.getD (-1)
  , mult := f.mult.getD 1
  , exclusionStrategy := f.exclusionStrategy.getD "subhalo"
  , exclusionRadiusMult := f.exclusionRadiusMult.getD 1 }

/-- The part of `validate` (cmd/id.go lines 113-131) that checks the
exclusion strategy: `none` and `subhalo` are accepted outright,
`overlap` additionally requires a positive `ExclusionRadiusMult`, and
anything else is rejected. -/
def strategyCheck (s : String) (q : ℚ) : Option IDError :=
  if s = "none" ∨ s = "subhalo" then none
  else if s = "overlap" then
    (if q ≤ 0 then some (.nonPositiveRadiusMult q) else none)
  else some (.badStrategy s)

/-- The ID/snap/mult checks of `validate` (cmd/id.go lines 133-159). -/
def validateIDPart (c : IDConfig) : Option IDError :=
  if c.ids = [] ∧ c.idStart = -1 ∧ c.idEnd = -1 then some .idsNotSet
  else if c.ids = [] ∧ c.idStart = -1 then some .idStartNotSet
  else if c.ids = [] ∧ c.idEnd = -1 then some .idEndNotSet
  else if c.ids = [] ∧ c.idEnd < c.idStart then
    some (.idEndLtStart c.idEnd c.idStart)
  else if c.snap = -1 then some .snapNotSet
  else if c.snap < 0 then some (.badSnap c.snap)
  else if c.mult ≤ 0 then some (.badMult c.mult)
  else none

/-- `validate` from `cmd/id.go` (lines 112-160): idType switch, then
the exclusion-strategy switch, then the ID/snap/mult checks.  It is a
pure function of the configuration: no I/O happens here. -/
def validate (c : IDConfig) : Option IDError :=
  if ¬(c.idType = "halo-id" ∨ c.idType = "m200m") then
    some (.badIDType c.idType)
  else
    match strategyCheck c.exclusionStrategy c.exclusionRadiusMult with
    | some e => some e
    | none => validateIDPart c

/-- `ReadConfig` from `cmd/id.go` (lines 91-110) for a present file:
parse with defaults, then validate. -/
def readConfig (f : ConfigFile) : Except IDError IDConfig :=
  let c := applyFile f
  match validate c with
  | some e => .error e
  | none => .ok c

/-- `getIDs` from `cmd/id.go` (lines 291-305).  When `idStart` is set
(not `-1`) it builds `make([]int, idEnd-idStart)` filled with
`idStart + i` — note the length is `idEnd - idStart`, so `idEnd` is
excluded; otherwise the explicit list is passed through unchanged. -/
def getIDs (idStart idEnd : Int) (ids : List Int) : List Int :=
  if idStart ≠ -1 then
    (List.range (idEnd - idStart).toNat).map (fun i => idStart + (i : Int))
  else ids

/-- The `maxID` loop of `convertSortedIDs` (cmd/id.go lines 311-316):
fold starting at 0, keeping the running maximum. -/
def goMax (rawIDs : List Int) : Int :=
  rawIDs.foldl (fun m id => if id > m then id else m) 0

/-- Modelled from the spec: `memo.ReadSortedRockstarIDs` (the `memo`
package is not part of the translated source).  Per spec §4.2 it
returns the snapshot's descending-mass ID list with at least
`maxID+1` entries, or the full catalog when `maxID = -1`; per spec
§4.4/§7 a requested rank at or beyond the catalog size is a
`RangeError`. -/
def readSortedRockstarIDs (env : Env) (snap maxID : Int) :
    Except IDError (List Int) :=
  let cat := env.catalog snap
  if maxID = -1 then .ok (cat.map Halo.id)
  else if (cat.length : Int) ≤ maxID then
    .error (.rangeError maxID cat.length)
  else .ok ((cat.map Halo.id).take (maxID.toNat + 1))

/-- The indexing loop of `convertSortedIDs` (cmd/id.go lines 323-326):
`ids[i] = rids[rawIDs[i]]`, a Go slice index that panics when out of
range. -/
def mapIndex (rids : List Int) : List Int → Outcome (List Int)
  | [] => .ok []
  | r :: rest =>
    if h : 0 ≤ r ∧ r.toNat < rids.length then
      match mapIndex rids rest with
      | .ok tl => .ok (rids.get ⟨r.toNat, h.2⟩ :: tl)
      | .err e => .err e
      | .crash m => .crash m
    else .crash "index out of range"

/-- `convertSortedIDs` from `cmd/id.go` (lines 307-328): compute the
maximum requested rank, ask the memo layer for the sorted ID list up
to that rank, then map every rank to its catalog ID. -/
def convertSortedIDs (env : Env) (rawIDs : List Int) (snap : Int) :
    Outcome (List Int) :=
  match readSortedRockstarIDs env snap (goMax rawIDs) with
  | .error e => .err e
  | .ok rids => mapIndex rids rawIDs

/-- First position of `id` in a list (the Go linear search over
`rids` breaks at the first match). -/
def firstIdx (id : Int) : List Int → Option Nat
  | [] => none
  | c :: rest => if c = id then some 0 else (firstIdx id rest).map (· + 1)

/-- The inner linear search of `findOverlapSubs` (cmd/id.go lines
366-374): walk `rids` with index `j`; at the first `checkID == id`
report the flag `hcB j`; when the last element is reached without a
match return the `"ID %d not in halo list."` error.  On an empty list
the loop body never runs, so nothing is reported (`.ok none`). -/
def scanFlag (hcB : Nat → Bool) (id : Int) : List Int → Nat →
    Except IDError (Option Bool)
  | [], _ => .ok none
  | [c], j =>
    if c = id then .ok (some (hcB j)) else .error (.idNotInHaloList id)
  | c :: c' :: rest, j =>
    if c = id then .ok (some (hcB j))
    else scanFlag hcB id (c' :: rest) (j + 1)

/-- Index the elements of a list starting at `n`. -/
def idxFrom (n : Nat) : List α → List (Nat × α)
  | [] => []
  | a :: rest => (n, a) :: idxFrom (n + 1) rest

/-- One step of the grouping loop of `findOverlapSubs` (cmd/id.go
lines 337-343): append an entry to its snapshot's group, creating the
group on first sight.  Go's map is modelled as an association list in
first-appearance order. -/
def addToGroup (groups : List (Int × List (Int × Nat))) (snap : Int)
    (entry : Int × Nat) : List (Int × List (Int × Nat)) :=
  match groups with
  | [] => [(snap, [entry])]
  | (s, mem) :: rest =>
    if s = snap then (s, mem ++ [entry]) :: rest
    else (s, mem) :: addToGroup rest snap entry

/-- The grouping loop of `findOverlapSubs`: for each selection index
`i`, file `(rawIDs[i], i)` under snapshot `snaps[i]`. -/
def groupBySnaps (rawIDs snaps : List Int) : List (Int × List (Int × Nat)) :=
  ((idxFrom 0 rawIDs).zip snaps).foldl
    (fun gs p => addToGroup gs p.2 (p.1.2, p.1.1)) []

/-- The per-group loop of `findOverlapSubs` (cmd/id.go lines 364-375):
for each member `(id, origIdx)` run the linear search over `rids`; a
found flag is written at `origIdx`, a failed search aborts with the
error, and an empty `rids` leaves the entry untouched. -/
def applyGroup (hcB : Nat → Bool) (rids : List Int) :
    List (Int × Nat) → List Bool → Except IDError (List Bool)
  | [], isSub => .ok isSub
  | (id, origIdx) :: rest, isSub =>
    match scanFlag hcB id rids 0 with
    | .error e => .error e
    | .ok none => applyGroup hcB rids rest isSub
    | .ok (some b) => applyGroup hcB rids rest (isSub.set origIdx b)

/-- The outer loop of `findOverlapSubs` over the snapshot groups
(cmd/id.go lines 352-376): per group, load the full catalog through
the memo layer, build the finder over it, and fill in the exclusion
flags of the group's members.  `hc` stands for the subhalo finder's
`HostCount` over the arguments (box width, radius multiplier,
catalog). -/
def processGroups (hc : ℚ → ℚ → List Halo → Nat → Nat) (env : Env)
    (radMult : ℚ) :
    List (Int × List (Int × Nat)) → List Bool → Outcome (List Bool)
  | [], isSub => .ok isSub
  | (snap, members) :: rest, isSub =>
    let halos := env.catalog snap
    let rids := halos.map Halo.id
    match applyGroup
        (fun j => decide (0 < hc env.width radMult halos j))
        rids members isSub with
    | .error e => .err e
    | .ok isSub' => processGroups hc env radMult rest isSub'

/-- `findOverlapSubs` from `cmd/id.go` (lines 330-378): start from an
all-`false` flag array, group the selection by snapshot, read the
headers of `snaps[0]` (a Go slice index: it panics on an empty
selection), and process each group.  `memo.ReadHeaders` and
`memo.ReadRockstar` are modelled as reads of `env`; the `halo`
package's subhalo finder is the parameter `hc`. -/
def findOverlapSubs (hc : ℚ → ℚ → List Halo → Nat → Nat) (env : Env)
    (radMult : ℚ) (rawIDs snaps : List Int) : Outcome (List Bool) :=
  let isSub := List.replicate rawIDs.length false
  let groups := groupBySnaps rawIDs snaps
  match snaps with
  | [] => .crash "index out of range"
  | _ :: _ => processGroups hc env radMult groups isSub

/-- Modelled from the spec: one output row of `catalog.FormatCols`
(the `catalog` package is not part of the translated source) — the
two fixed integer columns `[HaloID, Snapshot]` in that order
(spec §6). -/
def formatLine (id snap : Int) : String :=
  toString id ++ " " ++ toString snap

/-- Modelled from the spec: `catalog.FormatCols` on the two integer
columns `ids` and `snaps` — one line per row. -/
def formatCols (ids snaps : List Int) : List String :=
  (ids.zip snaps).map (fun p => formatLine p.1 p.2)

/-- Modelled from the spec: `catalog.CommentString` — the leading
comment line naming the columns and their widths (spec §6). -/
def commentString : String := "# Column contents: ID(0) Snapshot(1)"

/-- The inner repetition loop of `Run` (cmd/id.go lines 274-276):
`for j := 0; j < mult; j++` appends the line once per iteration. -/
def repLoop (l : String) : Nat → List String
  | 0 => []
  | n + 1 => repLoop l n ++ [l]

/-- The filtering loop of `Run` (cmd/id.go lines 264-269): keep
`lines[i]` whenever `exclude[i]` is false, appending in order. -/
def goFilter (lines : List String) (exclude : List Bool) : List String :=
  (lines.zip exclude).foldl
    (fun acc p => if p.2 then acc else acc ++ [p.1]) []

/-- The multiplicity loop of `Run` (cmd/id.go lines 272-277): append
each surviving line `mult` times (a Go counting loop runs
`max mult 0` times). -/
def goMultiply (lines : List String) (mult : Int) : List String :=
  lines.foldl (fun acc l => acc ++ repLoop l mult.toNat) []

/-- The ID/snapshot resolution of `Run` (cmd/id.go lines 187-241):
expand the raw selection, then branch on `idType`.  Both branches
fill `snaps` with `config.snap` at every position; `m200m`
additionally converts mass ranks through `convertSortedIDs`.  An
unknown `idType` hits `panic("Impossible")`. -/
def resolveIDs (env : Env) (c : IDConfig) : Outcome (List Int × List Int) :=
  let rawIds := getIDs c.idStart c.idEnd c.ids
  if c.idType = "halo-id" then
    .ok (rawIds, List.replicate rawIds.length c.snap)
  else if c.idType = "m200m" then
    match convertSortedIDs env rawIds c.snap with
    | .ok ids => .ok (ids, List.replicate rawIds.length c.snap)
    | .err e => .err e
    | .crash m => .crash m
  else .crash "Impossible"

/-- The exclusion switch of `Run` (cmd/id.go lines 244-255):
`exclude` starts as all-`false`; `none` leaves it, `subhalo` panics
with `"subhalo is not implemented"`, `overlap` runs
`findOverlapSubs`, and any other string falls through the switch
unchanged. -/
def applyExclusion (hc : ℚ → ℚ → List Halo → Nat → Nat) (env : Env)
    (c : IDConfig) (ids snaps : List Int) : Outcome (List Bool) :=
  if c.exclusionStrategy = "none" then
    .ok (List.replicate ids.length false)
  else if c.exclusionStrategy = "subhalo" then
    .crash "subhalo is not implemented"
  else if c.exclusionStrategy = "overlap" then
    findOverlapSubs hc env c.exclusionRadiusMult ids snaps
  else .ok (List.replicate ids.length false)

/-- `Run` from `cmd/id.go` (lines 163-289), output assembly included:
check `Snap`, check the global snapshot bounds, resolve the
selection, compute the exclusion flags, format, filter, multiply, and
prepend the comment line.  `gmin`/`gmax` are `gConfig.SnapMin` and
`gConfig.SnapMax`. -/
def runLines (hc : ℚ → ℚ → List Halo → Nat → Nat) (env : Env)
    (gmin gmax : Int) (c : IDConfig) : Outcome (List String) :=
  if c.snap = -1 then .err .snapVarNotSet
  else if c.snap < gmin ∨ gmax < c.snap then
    .err (.snapOutOfBounds c.snap gmin gmax)
  else
    match resolveIDs env c with
    | .err e => .err e
    | .crash m => .crash m
    | .ok (ids, snaps) =>
      match applyExclusion hc env c ids snaps with
      | .err e => .err e
      | .crash m => .crash m
      | .ok exclude =>
        .ok (commentString ::
          goMultiply (goFilter (formatCols ids snaps) exclude) c.mult)

/-- Absolute value on ℚ, written out for kernel evaluation. -/
def absQ (q : ℚ) : ℚ := if q < 0 then -q else q

/-- Minimum on ℚ, written out for kernel evaluation. -/
def minQ (a b : ℚ) : ℚ := if a ≤ b then a else b

/-- Modelled from the spec: periodic minimal-image separation along
one axis of the cube of side `L`, for coordinates already wrapped
into `[0, L)` (spec §4.1, glossary). -/
def axisGap (L a b : ℚ) : ℚ := minQ (absQ (a - b)) (L - absQ (a - b))

/-- Modelled from the spec: squared periodic minimal-image distance
between two halo centers. -/
def dist3sq (L : ℚ) (p q : Halo) : ℚ :=
  axisGap L p.x q.x * axisGap L p.x q.x +
  axisGap L p.y q.y * axisGap L p.y q.y +
  axisGap L p.z q.z * axisGap L p.z q.z

/-- Modelled from the spec: the deterministic "larger halo" ordering
of the finder — radius descending, ties broken by ascending HaloID
(spec §4.3 step 2). -/
def largerB (c h : Halo) : Bool :=
  (h.r < c.r) || (c.r = h.r && c.id < h.id)

/-- Modelled from the spec: `HostCount` of the `halo` package's
subhalo finder, reading spec §4.3 step 3 literally — the query
sphere around halo `j` has the queried halo's *own* radius scaled by
the multiplier, and every distinct larger halo whose center lies
within it counts as a host.  (The grid is a candidate pre-filter
with no false negatives, so counting over the whole catalog is its
exact-distance semantics.) -/
def hostCountOwn (L m : ℚ) (halos : List Halo) (j : Nat) : Nat :=
  match halos.get? j with
  | none => 0
  | some h =>
    ((idxFrom 0 halos).filter (fun p =>
      decide (p.1 ≠ j) && largerB p.2 h &&
      decide (dist3sq L p.2 h ≤ (h.r * m) * (h.r * m)))).length

/-- Modelled from the spec: `HostCount` with the directionality of
spec §8's overlap example — a halo gains a host for every distinct
larger halo whose *own* scaled radius reaches the queried halo's
center. -/
def hostCountHost (L m : ℚ) (halos : List Halo) (j : Nat) : Nat :=
  match halos.get? j with
  | none => 0
  | some h =>
    ((idxFrom 0 halos).filter (fun p =>
      decide (p.1 ≠ j) && largerB p.2 h &&
      decide (dist3sq L p.2 h ≤ (p.2.r * m) * (p.2.r * m)))).length

/-- A host-count stub for concrete runs whose claims do not depend on
the finder (strategy `none`/`subhalo`, or an empty catalog). -/
def hcZero : ℚ → ℚ → List Halo → Nat → Nat := fun _ _ _ _ => 0

/-- A host-count function returning the queried index, used to watch
which catalog position a selection's flag is read from. -/
def hcIdx : ℚ → ℚ → List Halo → Nat → Nat := fun _ _ _ j => j

/-- The exclusion flag the linear search of `findOverlapSubs` reports
for one ID: the host count at the ID's first position in the
snapshot's full sorted-ID list, `none` when the ID is absent. -/
def flagOfOpt (hcB : Nat → Bool) (rids : List Int) (id : Int) :
    Option Bool := (firstIdx id rids).map hcB

/-- The members of a snapshot group when the whole selection lands in
one snapshot: each ID paired with its original selection index,
starting at `k`. -/
def memFrom (k : Nat) : List Int → List (Int × Nat)
  | [] => []
  | x :: xs => (x, k) :: memFrom (k + 1) xs

/-- The first selected ID on which the linear search of
`findOverlapSubs` fails: none when the catalog is empty (the loop
body never runs), otherwise the first ID absent from `rids`. -/
def firstBad (rids xs : List Int) : Option Int :=
  if rids.isEmpty then none
  else xs.find? (fun id => (firstIdx id rids).isNone)

/-- An environment whose every catalog is empty. -/
def envE : Env := ⟨1000, fun _ => []⟩

/-- A three-halo catalog in descending-mass order, IDs `[7, 3, 9]`. -/
def cat3 : List Halo := [⟨7, 0, 0, 0, 1⟩, ⟨3, 100, 0, 0, 1⟩, ⟨9, 200, 0, 0, 1⟩]

/-- An environment whose snapshot 10 holds `cat3`. -/
def env3 : Env := ⟨1000, fun s => if s = 10 then cat3 else []⟩

/-- Halo A of the spec §8 overlap example: radius 10 at the origin. -/
def hA : Halo := ⟨1, 0, 0, 0, 10⟩

/-- Halo B of the spec §8 overlap example: radius 2, center 5 away. -/
def hB : Halo := ⟨2, 5, 0, 0, 2⟩

/-- A valid configuration selecting halo-id 1 with the `subhalo`
exclusion strategy. -/
def cSub : IDConfig := ⟨"halo-id", [1], -1, -1, 10, 1, "subhalo", 1⟩

/-- A configuration selecting mass rank 4 in `m200m` mode. -/
def cM200 : IDConfig := ⟨"m200m", [4], -1, -1, 10, 1, "none", 1⟩

/-- An `overlap` configuration with a non-positive radius multiplier. -/
def cOverlapBad : IDConfig := ⟨"halo-id", [1], -1, -1, 10, 1, "overlap", -1⟩

/-- A `none`-strategy configuration with a non-positive radius
multiplier. -/
def cNone : IDConfig := ⟨"halo-id", [1], -1, -1, 10, 1, "none", -1⟩

/-- A config file leaving `ExclusionStrategy` unset. -/
def fDefault : ConfigFile :=
  ⟨some "halo-id", some [1], none, none, some 10, some 1, none, some 1⟩

/-- A valid two-halo selection with multiplicity 2, strategy `none`. -/
def c6cfg : IDConfig := ⟨"halo-id", [1, 2], -1, -1, 10, 2, "none", 1⟩

/-- A valid selection of IDs `[9, 7]` at snapshot 10. -/
def c10cfg : IDConfig := ⟨"halo-id", [9, 7], -1, -1, 10, 1, "none", 1⟩

/-- A configuration that `validate` accepts whose expanded selection
is empty: `IDStart = IDEnd = 5` yields `make([]int, 0)`. -/
def cEmptySel : IDConfig := ⟨"halo-id", [], 5, 5, 10, 1, "overlap", 1⟩

/-- The Go counting loop appends `n` copies: `repLoop` is
`List.replicate`. -/
theorem repLoop_eq (l : String) : ∀ n, repLoop l n = List.replicate n l
  | 0 => rfl
  | n + 1 => by
    rw [repLoop, repLoop_eq l n, List.replicate_succ']

/-- Appending via a left fold is binding. -/
theorem foldl_append_bind {α β : Type} (g : α → List β) :
    ∀ (l : List α) (acc : List β),
      l.foldl (fun a x => a ++ g x) acc = acc ++ l.flatMap g
  | [], acc => by simp
  | x :: l, acc => by
    rw [List.foldl_cons, foldl_append_bind g l (acc ++ g x),
      List.flatMap_cons, List.append_assoc]

/-- The multiplicity loop of `Run` repeats each line `mult` times,
copies grouped per original line, order preserved. -/
theorem goMultiply_eq (lines : List String) (mult : Int) :
    goMultiply lines mult = lines.flatMap (fun l => List.replicate mult.toNat l) := by
  rw [goMultiply, foldl_append_bind (fun l => repLoop l mult.toNat) lines []]
  simp [repLoop_eq]

/-- The filtering fold of `Run`, characterised: keep exactly the
lines whose exclusion flag is `false`, in order. -/
theorem foldl_filter_aux {α : Type} :
    ∀ (l : List (α × Bool)) (acc : List α),
      l.foldl (fun a p => if p.2 then a else a ++ [p.1]) acc =
        acc ++ (l.filter (fun p => !p.2)).map Prod.fst
  | [], acc => by simp
  | (a, b) :: l, acc => by
    cases b with
    | true => simpa using foldl_filter_aux l acc
    | false =>
      rw [List.foldl_cons]
      simpa [List.append_assoc] using foldl_filter_aux l (acc ++ [a])

/-- `goFilter`, characterised through `List.filter`. -/
theorem goFilter_eq (lines : List String) (excl : List Bool) :
    goFilter lines excl =
      ((lines.zip excl).filter (fun p => !p.2)).map Prod.fst := by
  rw [goFilter]
  simpa using foldl_filter_aux (lines.zip excl) []

/-- C3: `getIDs` on `IDStart = 10`, `IDEnd = 15` (explicit list
empty) produces the end-exclusive range `[10, 11, 12, 13, 14]` with
`15 - 10 = 5` entries, not the inclusive 6-entry range the claim (and
the config file's own comment) describe. -/
theorem c3_range_end_exclusive :
    getIDs 10 15 [] = [10, 11, 12, 13, 14] ∧ (getIDs 10 15 []).length = 5 := by
  decide

/-- C2: a valid configuration with `ExclusionStrategy = "subhalo"`
passes `validate` without any error, and `Run` then panics with
`"subhalo is not implemented"` instead of returning a typed failure —
the claim's required explicit, reported rejection does not happen. -/
theorem c2_subhalo_is_panic :
    validate cSub = none ∧
    runLines hcZero envE 0 100 cSub = .crash "subhalo is not implemented" := by
  decide

/-- C4: the expansion step of `Run` repeats each surviving row
exactly `mult` times (`mult.toNat` coincides with `mult` for
`mult ≥ 1`), with all copies of one row contiguous and the relative
order of distinct rows preserved — it equals binding each row to
`mult` replicas. -/
theorem c4_multiplicity (lines : List String) (mult : Int) (h : 1 ≤ mult) :
    goMultiply lines mult = lines.flatMap (fun l => List.replicate mult.toNat l) ∧
    (mult.toNat : Int) = mult :=
  ⟨goMultiply_eq lines mult, Int.toNat_of_nonneg (by omega)⟩

/-- C4 witness: `mult = 3` on `[r1, r2]` yields
`[r1, r1, r1, r2, r2, r2]`. -/
theorem c4_witness :
    (1 : Int) ≤ 3 ∧
    (goMultiply ["r1", "r2"] 3 =
        ["r1", "r2"].flatMap (fun l => List.replicate ((3 : Int).toNat) l) ∧
      (((3 : Int).toNat : Int) = 3)) ∧
    goMultiply ["r1", "r2"] 3 = ["r1", "r1", "r1", "r2", "r2", "r2"] :=
  ⟨by decide, c4_multiplicity ["r1", "r2"] 3 (by decide), by decide⟩

/-- C7 counterexample: with the query sphere taken as the queried
halo's *own* scaled radius — the directionality the claim states —
halo B (radius 2, center 5 away from A's) has host count 0 in either
query order, refuting the claim's consequence `HostCount(B) ≥ 1`. -/
theorem c7_counterexample :
    hostCountOwn 1000 1 [hA, hB] 1 = 0 ∧ hostCountOwn 1000 1 [hB, hA] 0 = 0 := by
  constructor <;>
    norm_num [hostCountOwn, idxFrom, largerB, dist3sq, axisGap, absQ, minQ,
      hA, hB, List.filter]

/-- C7 (amended): with the query sphere taken as the larger
(candidate) halo's own radius scaled by the multiplier, halo A
(radius 10) and halo B (radius 2) with centers 5 apart and
multiplier 1 give `HostCount(B) ≥ 1` and `HostCount(A) = 0`,
independent of query order. -/
theorem c7_host_radius_directionality :
    1 ≤ hostCountHost 1000 1 [hA, hB] 1 ∧ hostCountHost 1000 1 [hA, hB] 0 = 0 ∧
    1 ≤ hostCountHost 1000 1 [hB, hA] 0 ∧ hostCountHost 1000 1 [hB, hA] 1 = 0 := by
  refine ⟨?_, ?_, ?_, ?_⟩ <;>
    norm_num [hostCountHost, idxFrom, largerB, dist3sq, axisGap, absQ, minQ,
      hA, hB, List.filter]

/-- C5 counterexample: on an empty snapshot catalog the linear search
of `findOverlapSubs` never reaches its not-found check, so a selected
ID absent from the catalog yields `.ok [false]` — a flag, not an
error. -/
theorem c5_counterexample :
    (envE.catalog 0).map Halo.id = [] ∧
    findOverlapSubs hcZero envE 1 [5] [0] = .ok [false] := by
  decide

/-- C10 counterexample: `validate` accepts `IDStart = IDEnd = 5`
(strategy `overlap`), the selection expands to zero pairs, the
snapshot grouping then contains zero groups — not exactly one — and
the run panics indexing `snaps[0]`. -/
theorem c10_counterexample :
    validate cEmptySel = none ∧
    getIDs cEmptySel.idStart cEmptySel.idEnd cEmptySel.ids = [] ∧
    groupBySnaps [] [] = [] ∧
    runLines hcZero envE 0 100 cEmptySel = .crash "index out of range" := by
  decide

/-- The strategy check accepts `none` regardless of the multiplier. -/
theorem strategyCheck_none (q : ℚ) : strategyCheck "none" q = none := by
  rw [strategyCheck, if_pos (Or.inl rfl)]

/-- The strategy check accepts `subhalo` regardless of the
multiplier. -/
theorem strategyCheck_subhalo (q : ℚ) : strategyCheck "subhalo" q = none := by
  rw [strategyCheck, if_pos (Or.inr rfl)]

/-- The strategy check on `overlap` demands a positive multiplier. -/
theorem strategyCheck_overlap (q : ℚ) :
    strategyCheck "overlap" q =
      if q ≤ 0 then some (.nonPositiveRadiusMult q) else none := by
  rw [strategyCheck, if_neg (by decide), if_pos rfl]

/-- C8: `validate` (a pure function, run before any I/O) rejects
every configuration whose strategy is `overlap` with a non-positive
`exclusionRadiusMult`, and for strategy `none` its verdict does not
depend on `exclusionRadiusMult` at all. -/
theorem c8_overlap_radius_check (c : IDConfig) (q : ℚ) :
    (c.exclusionStrategy = "overlap" → c.exclusionRadiusMult ≤ 0 →
      ∃ e, validate c = some e) ∧
    (c.exclusionStrategy = "none" →
      validate { c with exclusionRadiusMult := q } = validate c) := by
  obtain ⟨t, ids, s0, e0, sn, m, strat, q0⟩ := c
  constructor
  · intro hs hq
    cases hs
    rw [validate]
    by_cases ht : ¬(t = "halo-id" ∨ t = "m200m")
    · exact ⟨_, if_pos ht⟩
    · rw [if_neg ht, strategyCheck_overlap, if_pos hq]
      exact ⟨_, rfl⟩
  · intro hs
    cases hs
    show validate ⟨t, ids, s0, e0, sn, m, "none", q⟩ =
      validate ⟨t, ids, s0, e0, sn, m, "none", q0⟩
    rw [validate, validate]
    by_cases ht : ¬(t = "halo-id" ∨ t = "m200m")
    · rw [if_pos ht, if_pos ht]
    · rw [if_neg ht, if_neg ht, strategyCheck_none, strategyCheck_none]
      rfl

/-- C8 witness: an `overlap` configuration with multiplier `-1` is
rejected, while a `none` configuration's verdict ignores the
multiplier. -/
theorem c8_witness :
    (∃ e, validate cOverlapBad = some e) ∧
    validate { cNone with exclusionRadiusMult := -2 } = validate cNone :=
  ⟨(c8_overlap_radius_check cOverlapBad (-2)).1 rfl (by decide),
   (c8_overlap_radius_check cNone (-2)).2 rfl⟩

/-- C9: a config file with `ExclusionStrategy` absent is given the
registered default `"subhalo"`, the strategy check of `validate`
accepts that value, and `Run`'s exclusion switch on the resulting
configuration reaches the `subhalo` branch (the panic). -/
theorem c9_default_strategy (f : ConfigFile) (h : f.exclusionStrategy = none) :
    (applyFile f).exclusionStrategy = "subhalo" ∧
    strategyCheck (applyFile f).exclusionStrategy
      (applyFile f).exclusionRadiusMult = none ∧
    ∀ hc env ids snaps,
      applyExclusion hc env (applyFile f) ids snaps =
        .crash "subhalo is not implemented" := by
  have h1 : (applyFile f).exclusionStrategy = "subhalo" := by
    simp [applyFile, h]
  refine ⟨h1, ?_, ?_⟩
  · rw [h1, strategyCheck_subhalo]
  · intro hc env ids snaps
    rw [applyExclusion, h1]
    rw [if_neg (by decide), if_pos rfl]

/-- C9 witness: a file setting only `IDs` and `Snap` parses to a
configuration that `ReadConfig` accepts and that panics in `Run`'s
exclusion switch. -/
theorem c9_witness :
    readConfig fDefault = .ok (applyFile fDefault) ∧
    (applyFile fDefault).exclusionStrategy = "subhalo" ∧
    applyExclusion hcZero envE (applyFile fDefault) [1] [10] =
      .crash "subhalo is not implemented" :=
  ⟨rfl, (c9_default_strategy fDefault rfl).1,
   (c9_default_strategy fDefault rfl).2.2 hcZero envE [1] [10]⟩

/-- The fold of `convertSortedIDs` never drops below its seed. -/
theorem goMax_init_le :
    ∀ (l : List Int) (init : Int),
      init ≤ l.foldl (fun m id => if id > m then id else m) init
  | [], _ => le_refl _
  | x :: l, init => by
    rw [List.foldl_cons]
    refine le_trans ?_ (goMax_init_le l _)
    by_cases hx : x > init
    · rw [if_pos hx]; exact le_of_lt hx
    · rw [if_neg hx]

/-- The fold of `convertSortedIDs` dominates every list element. -/
theorem goMax_mem_le :
    ∀ (l : List Int) (init r : Int), r ∈ l →
      r ≤ l.foldl (fun m id => if id > m then id else m) init
  | [], _, r, hr => absurd hr (List.not_mem_nil r)
  | x :: l, init, r, hr => by
    rw [List.foldl_cons]
    rcases List.mem_cons.mp hr with h | h
    · subst h
      refine le_trans ?_ (goMax_init_le l _)
      by_cases hx : r > init
      · rw [if_pos hx]
      · rw [if_neg hx]; exact le_of_not_lt hx
    · exact goMax_mem_le l _ r h

/-- `goMax` dominates every requested rank. -/
theorem goMax_ge (r : Int) (l : List Int) (h : r ∈ l) : r ≤ goMax l :=
  goMax_mem_le l 0 r h

/-- `goMax` starts at zero, so it is never negative. -/
theorem goMax_nonneg (l : List Int) : 0 ≤ goMax l := goMax_init_le l 0

/-- C1: in `m200m` mode, a selection containing a rank at or beyond
the snapshot's catalog size makes `convertSortedIDs` fail with the
`RangeError` of the sorted-ID read, and the whole run returns that
error — no output rows are produced. -/
theorem c1_rank_range_error (env : Env) (rawIDs : List Int) (snap r : Int)
    (hmem : r ∈ rawIDs) (hge : ((env.catalog snap).length : Int) ≤ r) :
    convertSortedIDs env rawIDs snap =
      .err (.rangeError (goMax rawIDs) (env.catalog snap).length) ∧
    ∀ hc gmin gmax (c : IDConfig), c.idType = "m200m" → c.snap = snap →
      ¬(c.snap = -1) → ¬(c.snap < gmin ∨ gmax < c.snap) →
      getIDs c.idStart c.idEnd c.ids = rawIDs →
      runLines hc env gmin gmax c =
        .err (.rangeError (goMax rawIDs) (env.catalog snap).length) := by
  have hle : ((env.catalog snap).length : Int) ≤ goMax rawIDs :=
    le_trans hge (goMax_ge r rawIDs hmem)
  have hne : ¬(goMax rawIDs = -1) := by
    have h0 := goMax_nonneg rawIDs
    omega
  have hconv : convertSortedIDs env rawIDs snap =
      .err (.rangeError (goMax rawIDs) (env.catalog snap).length) := by
    simp only [convertSortedIDs, readSortedRockstarIDs, if_neg hne, if_pos hle]
  refine ⟨hconv, ?_⟩
  intro hc gmin gmax c hType hSnap h1 h2 hraw
  have hT2 : ¬(c.idType = "halo-id") := by rw [hType]; decide
  have hres : resolveIDs env c =
      .err (.rangeError (goMax rawIDs) (env.catalog snap).length) := by
    simp only [resolveIDs, hraw, hSnap, if_neg hT2, if_pos hType, hconv]
  simp only [runLines, if_neg h1, if_neg h2, hres]

/-- C1 witness: requesting mass rank 4 on a 3-halo catalog fails with
the `RangeError` carrying rank 4 against size 3, both in
`convertSortedIDs` and in the full run. -/
theorem c1_witness :
    convertSortedIDs env3 [4] 10 =
      .err (.rangeError (goMax [4]) (env3.catalog 10).length) ∧
    runLines hcZero env3 0 100 cM200 =
      .err (.rangeError (goMax [4]) (env3.catalog 10).length) ∧
    goMax [4] = 4 ∧ (env3.catalog 10).length = 3 :=
  have h := c1_rank_range_error env3 [4] 10 4 (by decide) (by decide)
  ⟨h.1, h.2 hcZero 0 100 cM200 rfl rfl (by decide) (by decide) (by decide),
   by decide, by decide⟩

/-- The linear search reports the flag at the ID's first position in
the sorted-ID list. -/
theorem scanFlag_found (hcB : Nat → Bool) (id : Int) :
    ∀ (l : List Int) (j k : Nat), firstIdx id l = some k →
      scanFlag hcB id l j = .ok (some (hcB (j + k)))
  | [], j, k, h => by simp [firstIdx] at h
  | [c], j, k, h => by
    rw [firstIdx] at h
    by_cases hc : c = id
    · rw [if_pos hc] at h
      injection h with hk
      rw [scanFlag, if_pos hc, ← hk, Nat.add_zero]
    · rw [if_neg hc] at h
      simp [firstIdx] at h
  | c :: c' :: rest, j, k, h => by
    rw [firstIdx] at h
    by_cases hc : c = id
    · rw [if_pos hc] at h
      injection h with hk
      rw [scanFlag, if_pos hc, ← hk, Nat.add_zero]
    · rw [if_neg hc] at h
      obtain ⟨k', hk', rfl⟩ := Option.map_eq_some'.mp h
      have hj : j + 1 + k' = j + (k' + 1) := by omega
      rw [scanFlag, if_neg hc,
        scanFlag_found hcB id (c' :: rest) (j + 1) k' hk', hj]

/-- The linear search on a non-empty list errors when the ID is
absent. -/
theorem scanFlag_missing (hcB : Nat → Bool) (id : Int) :
    ∀ (l : List Int) (j : Nat), firstIdx id l = none → l ≠ [] →
      scanFlag hcB id l j = .error (.idNotInHaloList id)
  | [], _, _, hne => absurd rfl hne
  | [c], j, h, _ => by
    rw [firstIdx] at h
    by_cases hc : c = id
    · rw [if_pos hc] at h; exact Option.noConfusion h
    · rw [scanFlag, if_neg hc]
  | c :: c' :: rest, j, h, _ => by
    rw [firstIdx] at h
    by_cases hc : c = id
    · rw [if_pos hc] at h; exact Option.noConfusion h
    · rw [if_neg hc, Option.map_eq_none'] at h
      rw [scanFlag, if_neg hc,
        scanFlag_missing hcB id (c' :: rest) (j + 1) h (by simp)]

/-- Setting the position right after `front` rewrites the head of the
remainder. -/
theorem set_append_cons {α : Type} (b : α) :
    ∀ (front : List α) (r : α) (rest : List α),
      (front ++ r :: rest).set front.length b = front ++ b :: rest
  | [], _, _ => rfl
  | x :: front, r, rest => by
    show x :: ((front ++ r :: rest).set front.length b) = x :: (front ++ b :: rest)
    rw [set_append_cons b front r rest]

/-- `firstBad` of an empty selection is nothing. -/
theorem firstBad_nil (rids : List Int) : firstBad rids [] = none := by
  rw [firstBad]
  split <;> rfl

/-- `firstBad` on an empty catalog is nothing. -/
theorem firstBad_rids_nil (xs : List Int) : firstBad [] xs = none := by
  simp [firstBad]

/-- `firstBad` over a non-empty catalog steps through the selection. -/
theorem firstBad_cons (rids : List Int) (hne : rids ≠ []) (x : Int)
    (xs : List Int) :
    firstBad rids (x :: xs) =
      if (firstIdx x rids).isNone then some x else firstBad rids xs := by
  have hE : rids.isEmpty = false := by
    cases rids with
    | nil => exact absurd rfl hne
    | cons a l => rfl
  by_cases hp : (firstIdx x rids).isNone <;> simp [firstBad, hE, hp]

/-- Zipping a list with same-length replicas pairs every element with
the replicated value. -/
theorem zip_replicate_self {α β : Type} (b : β) :
    ∀ l : List α, l.zip (List.replicate l.length b) = l.map (fun a => (a, b))
  | [] => rfl
  | a :: l => by
    rw [List.length_cons, List.replicate_succ, List.zip_cons_cons,
      zip_replicate_self b l, List.map_cons]

/-- The per-group loop, characterised: processing the members of a
single all-of-the-selection group either stops at the first ID the
linear search cannot find (non-empty catalog), or overwrites each
member's slot with the flag of its ID's exact match — the slot keeps
its old value only when the catalog is empty. -/
theorem applyGroup_eq (hcB : Nat → Bool) (rids : List Int) :
    ∀ (xs : List Int) (front rest : List Bool), rest.length = xs.length →
      applyGroup hcB rids (memFrom front.length xs) (front ++ rest) =
        match firstBad rids xs with
        | some bad => .error (.idNotInHaloList bad)
        | none => .ok (front ++ (xs.zip rest).map
            (fun p => (flagOfOpt hcB rids p.1).getD p.2))
  | [], front, rest, hlen => by
    have hr : rest = [] := List.eq_nil_of_length_eq_zero hlen
    subst hr
    rw [memFrom, firstBad_nil]
    simp [applyGroup]
  | x :: xs, front, rest, hlen => by
    cases rest with
    | nil => exact absurd hlen.symm (by simp)
    | cons r rest' =>
      have hlen' : rest'.length = xs.length := by simpa using hlen
      have hfl : ∀ b : Bool, (front ++ [b]).length = front.length + 1 := by simp
      rw [memFrom, applyGroup]
      by_cases hre : rids = []
      · subst hre
        have hscan : scanFlag hcB x [] 0 = .ok none := rfl
        rw [hscan]
        have h1 : front ++ r :: rest' = (front ++ [r]) ++ rest' :=
          List.append_cons front r rest'
        rw [h1, ← hfl r, applyGroup_eq hcB [] xs (front ++ [r]) rest' hlen',
          firstBad_rids_nil, firstBad_rids_nil]
        rw [List.zip_cons_cons, List.map_cons]
        simp [flagOfOpt, firstIdx]
      · rcases hfi : firstIdx x rids with _ | k
        · rw [scanFlag_missing hcB x rids 0 hfi hre,
            firstBad_cons rids hre, hfi]
          simp
        · rw [scanFlag_found hcB x rids 0 k hfi]
          dsimp only
          rw [set_append_cons, List.append_cons, ← hfl (hcB (0 + k)),
            applyGroup_eq hcB rids xs (front ++ [hcB (0 + k)]) rest' hlen',
            firstBad_cons rids hre, hfi]
          rw [if_neg (by simp)]
          cases hfb : firstBad rids xs with
          | some bad => rfl
          | none =>
            rw [List.zip_cons_cons, List.map_cons]
            simp [flagOfOpt, hfi]
/-- Indexing a list does not change its length. -/
theorem idxFrom_length {α : Type} :
    ∀ (n : Nat) (l : List α), (idxFrom n l).length = l.length
  | _, [] => rfl
  | n, a :: l => by
    rw [idxFrom, List.length_cons, List.length_cons, idxFrom_length (n + 1) l]

/-- Swapping the indexed pairs yields the group-member form. -/
theorem idxFrom_map_swap :
    ∀ (k : Nat) (l : List Int),
      (idxFrom k l).map (fun p => (p.2, p.1)) = memFrom k l
  | _, [] => rfl
  | k, x :: l => by
    rw [idxFrom, List.map_cons, memFrom, idxFrom_map_swap (k + 1) l]

/-- Folding the grouping step over entries that all carry the same
snapshot key extends the single existing group in order. -/
theorem foldl_addToGroup_same (s : Int) :
    ∀ (l : List (Nat × Int)) (mem : List (Int × Nat)),
      (l.map (fun p => (p, s))).foldl
        (fun gs q => addToGroup gs q.2 (q.1.2, q.1.1)) [(s, mem)] =
      [(s, mem ++ l.map (fun p => (p.2, p.1)))]
  | [], mem => by simp
  | p :: l, mem => by
    rw [List.map_cons, List.foldl_cons]
    dsimp only
    rw [show addToGroup [(s, mem)] s (p.2, p.1) = [(s, mem ++ [(p.2, p.1)])] from
        by simp [addToGroup],
      foldl_addToGroup_same s l (mem ++ [(p.2, p.1)])]
    simp

/-- When every selected pair carries the same snapshot — as both
branches of `Run` arrange — the grouping of a non-empty selection is
exactly one group, keyed by that snapshot, holding every ID with its
original index in order. -/
theorem groupBySnaps_replicate (s : Int) (rawIDs : List Int)
    (hn : rawIDs ≠ []) :
    groupBySnaps rawIDs (List.replicate rawIDs.length s) =
      [(s, memFrom 0 rawIDs)] := by
  obtain ⟨a, t, rfl⟩ := List.exists_cons_of_ne_nil hn
  rw [groupBySnaps, show (a :: t).length = (idxFrom 0 (a :: t)).length from
      (idxFrom_length 0 (a :: t)).symm,
    zip_replicate_self s (idxFrom 0 (a :: t))]
  rw [idxFrom, List.map_cons, List.foldl_cons]
  dsimp only
  rw [show addToGroup [] s (a, 0) = [(s, [(a, 0)])] from rfl,
    foldl_addToGroup_same s (idxFrom 1 t) [(a, 0)],
    idxFrom_map_swap 1 t, memFrom]
  simp

/-- `processGroups` on a single group runs the per-group loop over
that snapshot's full catalog and lifts its result. -/
theorem processGroups_single (hc : ℚ → ℚ → List Halo → Nat → Nat)
    (env : Env) (radMult : ℚ) (s : Int) (members : List (Int × Nat))
    (isSub : List Bool) :
    processGroups hc env radMult [(s, members)] isSub =
      match applyGroup
          (fun j => decide (0 < hc env.width radMult (env.catalog s) j))
          ((env.catalog s).map Halo.id) members isSub with
      | .error e => .err e
      | .ok isSub' => .ok isSub' := by
  rw [processGroups]
  cases happ : applyGroup
      (fun j => decide (0 < hc env.width radMult (env.catalog s) j))
      ((env.catalog s).map Halo.id) members isSub with
  | error e => rfl
  | ok isSub' => rfl

/-- `findOverlapSubs` on a non-empty single-snapshot selection,
characterised: it stops at the first selected ID the linear search
cannot find in the non-empty catalog, and otherwise returns each
selected ID's flag by its exact first match in the catalog's
sorted-ID list. -/
theorem findOverlapSubs_replicate (hc : ℚ → ℚ → List Halo → Nat → Nat)
    (env : Env) (radMult : ℚ) (rawIDs : List Int) (s : Int)
    (hn : rawIDs ≠ []) :
    findOverlapSubs hc env radMult rawIDs (List.replicate rawIDs.length s) =
      match firstBad ((env.catalog s).map Halo.id) rawIDs with
      | some bad => .err (.idNotInHaloList bad)
      | none => .ok (rawIDs.map (fun id =>
          (flagOfOpt
            (fun j => decide (0 < hc env.width radMult (env.catalog s) j))
            ((env.catalog s).map Halo.id) id).getD false)) := by
  obtain ⟨a, t, rfl⟩ := List.exists_cons_of_ne_nil hn
  have hg : groupBySnaps (a :: t) (s :: List.replicate t.length s) =
      [(s, memFrom 0 (a :: t))] := by
    have h := groupBySnaps_replicate s (a :: t) (by simp)
    rwa [List.length_cons, List.replicate_succ] at h
  rw [findOverlapSubs.eq_def, List.length_cons,
    show (List.replicate (t.length + 1) s : List Int) =
      s :: List.replicate t.length s from List.replicate_succ s t.length,
    show (List.replicate (t.length + 1) false : List Bool) =
      false :: List.replicate t.length false from List.replicate_succ false t.length]
  dsimp only
  rw [hg, processGroups_single]
  have hlen : (false :: List.replicate t.length false).length = (a :: t).length := by
    simp
  have happ := applyGroup_eq
    (fun j => decide (0 < hc env.width radMult (env.catalog s) j))
    ((env.catalog s).map Halo.id) (a :: t) []
    (false :: List.replicate t.length false) hlen
  simp only [List.nil_append, List.length_nil] at happ
  rw [happ]
  cases hfb : firstBad ((env.catalog s).map Halo.id) (a :: t) with
  | some bad => rfl
  | none =>
    have hz : (a :: t).zip (false :: List.replicate t.length false) =
        (a :: t).map (fun x => (x, false)) := by
      rw [show (false :: List.replicate t.length false) =
            List.replicate (a :: t).length false from by
          rw [List.length_cons, List.replicate_succ],
        zip_replicate_self]
    rw [hz, List.map_map]
    rfl

/-- C5 (amended): under the overlap strategy on a single-snapshot
selection, every returned exclusion flag is determined by the ID's
exact first match in the snapshot's full sorted-ID list — a function
of the ID alone, never of its position in the selection — and a
selected ID absent from a *non-empty* catalog makes `findOverlapSubs`
return the not-in-halo-list error instead of flags. -/
theorem c5_exact_id_match (hc : ℚ → ℚ → List Halo → Nat → Nat) (env : Env)
    (radMult : ℚ) (rawIDs : List Int) (s : Int) (hn : rawIDs ≠ []) :
    (∀ flags, findOverlapSubs hc env radMult rawIDs
        (List.replicate rawIDs.length s) = .ok flags →
      flags = rawIDs.map (fun id =>
        (flagOfOpt
          (fun j => decide (0 < hc env.width radMult (env.catalog s) j))
          ((env.catalog s).map Halo.id) id).getD false)) ∧
    (∀ id, id ∈ rawIDs →
      firstIdx id ((env.catalog s).map Halo.id) = none →
      (env.catalog s).map Halo.id ≠ [] →
      ∃ bad, bad ∈ rawIDs ∧
        firstIdx bad ((env.catalog s).map Halo.id) = none ∧
        findOverlapSubs hc env radMult rawIDs
          (List.replicate rawIDs.length s) = .err (.idNotInHaloList bad)) := by
  have hchar := findOverlapSubs_replicate hc env radMult rawIDs s hn
  constructor
  · intro flags hok
    rw [hchar] at hok
    cases hfb : firstBad ((env.catalog s).map Halo.id) rawIDs with
    | some bad => rw [hfb] at hok; exact Outcome.noConfusion hok
    | none =>
      rw [hfb] at hok
      injection hok with h
      exact h.symm
  · intro id hid hnone hrne
    have hpred :
        (fun x => (firstIdx x ((env.catalog s).map Halo.id)).isNone) id = true := by
      simp [hnone]
    have hsome :
        (rawIDs.find?
          (fun x => (firstIdx x ((env.catalog s).map Halo.id)).isNone)).isSome :=
      List.find?_isSome.mpr ⟨id, hid, hpred⟩
    obtain ⟨bad, hbad⟩ := Option.isSome_iff_exists.mp hsome
    have hE : ((env.catalog s).map Halo.id).isEmpty = false := by
      cases h' : (env.catalog s).map Halo.id with
      | nil => exact absurd h' hrne
      | cons u v => rfl
    have hfb : firstBad ((env.catalog s).map Halo.id) rawIDs = some bad := by
      rw [firstBad, hE, if_neg (by simp)]
      exact hbad
    refine ⟨bad, List.mem_of_find?_eq_some hbad, ?_, ?_⟩
    · have hp := List.find?_some hbad
      simpa [Option.isNone_iff_eq_none] using hp
    · rw [hchar, hfb]

/-- C5 witness: selecting IDs `[9, 7]` (catalog order `[7, 3, 9]`)
with the index-reporting host counter returns the flags of catalog
positions 2 and 0 — exact ID matches, not selection positions. -/
theorem c5_witness :
    findOverlapSubs hcIdx env3 1 [9, 7] (List.replicate 2 10) = .ok [true, false] ∧
    [true, false] = ([9, 7] : List Int).map (fun id =>
      (flagOfOpt (fun j => decide (0 < hcIdx env3.width 1 (env3.catalog 10) j))
        ((env3.catalog 10).map Halo.id) id).getD false) :=
  ⟨by decide,
   (c5_exact_id_match hcIdx env3 1 [9, 7] 10 (by decide)).1 [true, false]
     (by decide)⟩

/-- The indexing loop of `convertSortedIDs` returns one canonical ID
per requested rank. -/
theorem mapIndex_length (rids : List Int) :
    ∀ (l out : List Int), mapIndex rids l = .ok out → out.length = l.length
  | [], out, h => by
    rw [mapIndex] at h
    injection h with h'
    rw [← h']
  | r :: rest, out, h => by
    rw [mapIndex] at h
    by_cases hcond : 0 ≤ r ∧ r.toNat < rids.length
    · rw [dif_pos hcond] at h
      cases hm : mapIndex rids rest with
      | ok tl =>
        rw [hm] at h
        injection h with h'
        rw [← h', List.length_cons, List.length_cons,
          mapIndex_length rids rest tl hm]
      | err e => rw [hm] at h; exact Outcome.noConfusion h
      | crash m => rw [hm] at h; exact Outcome.noConfusion h
    · rw [dif_neg hcond] at h
      exact Outcome.noConfusion h

/-- A successful rank conversion has one output ID per input rank. -/
theorem convertSortedIDs_length (env : Env) (rawIDs : List Int) (snap : Int)
    (out : List Int) (h : convertSortedIDs env rawIDs snap = .ok out) :
    out.length = rawIDs.length := by
  rw [convertSortedIDs] at h
  cases hr : readSortedRockstarIDs env snap (goMax rawIDs) with
  | error e => rw [hr] at h; exact Outcome.noConfusion h
  | ok rids => rw [hr] at h; exact mapIndex_length rids rawIDs out h

/-- Both branches of `Run`'s resolution fill the snapshot column with
`config.snap` at every position. -/
theorem resolveIDs_ok (env : Env) (c : IDConfig) (ids snaps : List Int)
    (h : resolveIDs env c = .ok (ids, snaps)) :
    snaps = List.replicate ids.length c.snap := by
  simp only [resolveIDs] at h
  by_cases h1 : c.idType = "halo-id"
  · rw [if_pos h1] at h
    injection h with h'
    injection h' with ha hb
    rw [← hb, ← ha]
  · rw [if_neg h1] at h
    by_cases h2 : c.idType = "m200m"
    · rw [if_pos h2] at h
      cases hm : convertSortedIDs env (getIDs c.idStart c.idEnd c.ids) c.snap with
      | ok ids' =>
        rw [hm] at h
        injection h with h'
        injection h' with ha hb
        rw [← hb, ← ha, convertSortedIDs_length env _ c.snap ids' hm]
      | err e => rw [hm] at h; exact Outcome.noConfusion h
      | crash m => rw [hm] at h; exact Outcome.noConfusion h
    · rw [if_neg h2] at h
      exact Outcome.noConfusion h

/-- A successful run decomposes into a successful resolution, a
successful exclusion pass, and the formatted/filtered/multiplied
lines behind the comment line. -/
theorem runLines_ok_decomp (hc : ℚ → ℚ → List Halo → Nat → Nat) (env : Env)
    (gmin gmax : Int) (c : IDConfig) (out : List String)
    (h : runLines hc env gmin gmax c = .ok out) :
    ∃ ids snaps exclude,
      resolveIDs env c = .ok (ids, snaps) ∧
      applyExclusion hc env c ids snaps = .ok exclude ∧
      out = commentString ::
        goMultiply (goFilter (formatCols ids snaps) exclude) c.mult := by
  simp only [runLines] at h
  by_cases h1 : c.snap = -1
  · rw [if_pos h1] at h; exact Outcome.noConfusion h
  · rw [if_neg h1] at h
    by_cases h2 : c.snap < gmin ∨ gmax < c.snap
    · rw [if_pos h2] at h; exact Outcome.noConfusion h
    · rw [if_neg h2] at h
      cases hres : resolveIDs env c with
      | ok p =>
        obtain ⟨ids, snaps⟩ := p
        simp only [hres] at h
        cases hexc : applyExclusion hc env c ids snaps with
        | ok exclude =>
          rw [hexc] at h
          refine ⟨ids, snaps, exclude, rfl, hexc, ?_⟩
          injection h with h'
          exact h'.symm
        | err e => rw [hexc] at h; exact Outcome.noConfusion h
        | crash m => rw [hexc] at h; exact Outcome.noConfusion h
      | err e => rw [hres] at h; exact Outcome.noConfusion h
      | crash m => rw [hres] at h; exact Outcome.noConfusion h

/-- Filtering the formatted lines is filtering the (ID, snapshot)
pairs by their exclusion flag and formatting the survivors. -/
theorem filtered_lines_eq (ids snaps : List Int) (exclude : List Bool) :
    (((formatCols ids snaps).zip exclude).filter (fun p => !p.2)).map Prod.fst =
      (((ids.zip snaps).zip exclude).filter (fun p => !p.2)).map
        (fun p => formatLine p.1.1 p.1.2) := by
  rw [formatCols, List.zip_map_left, List.filter_map, List.map_map]
  rfl

/-- C6: every successful run's output is exactly one leading comment
line followed by the surviving selections — those whose exclusion
flag is false, excluded ones contributing no line — each formatted as
the `[HaloID, Snapshot]` row and repeated `mult` times. -/
theorem c6_output_shape (hc : ℚ → ℚ → List Halo → Nat → Nat) (env : Env)
    (gmin gmax : Int) (c : IDConfig) (out : List String)
    (h : runLines hc env gmin gmax c = .ok out) :
    ∃ ids snaps exclude,
      resolveIDs env c = .ok (ids, snaps) ∧
      applyExclusion hc env c ids snaps = .ok exclude ∧
      out = commentString ::
        ((((ids.zip snaps).zip exclude).filter (fun p => !p.2)).map
          (fun p => formatLine p.1.1 p.1.2)).flatMap
          (fun l => List.replicate c.mult.toNat l) := by
  obtain ⟨ids, snaps, exclude, h1, h2, h3⟩ :=
    runLines_ok_decomp hc env gmin gmax c out h
  refine ⟨ids, snaps, exclude, h1, h2, ?_⟩
  rw [h3, goMultiply_eq, goFilter_eq, filtered_lines_eq]

/-- C6 witness: a two-row run with multiplicity 2 and no exclusions
returns the comment line and each formatted row twice. -/
theorem c6_witness :
    ∃ ids snaps exclude,
      resolveIDs envE c6cfg = .ok (ids, snaps) ∧
      applyExclusion hcZero envE c6cfg ids snaps = .ok exclude ∧
      [commentString, "1 10", "1 10", "2 10", "2 10"] = commentString ::
        ((((ids.zip snaps).zip exclude).filter (fun p => !p.2)).map
          (fun p => formatLine p.1.1 p.1.2)).flatMap
          (fun l => List.replicate c6cfg.mult.toNat l) :=
  c6_output_shape hcZero envE 0 100 c6cfg
    [commentString, "1 10", "1 10", "2 10", "2 10"] (by decide)

/-- C10 (amended): both resolution branches fill the snapshot list
with `config.snap` at every position; for a *non-empty* resolved
selection the snapshot grouping is exactly one group keyed by
`config.snap`; and every data row of a successful run carries
`config.snap` in its snapshot column.  (An empty selection — reachable
via `IDStart = IDEnd` — yields zero groups instead.) -/
theorem c10_single_snapshot (hc : ℚ → ℚ → List Halo → Nat → Nat) (env : Env)
    (gmin gmax : Int) (c : IDConfig) :
    (∀ ids snaps, resolveIDs env c = .ok (ids, snaps) →
      snaps = List.replicate ids.length c.snap) ∧
    (∀ rawIDs : List Int, rawIDs ≠ [] →
      groupBySnaps rawIDs (List.replicate rawIDs.length c.snap) =
        [(c.snap, memFrom 0 rawIDs)]) ∧
    (∀ out, runLines hc env gmin gmax c = .ok out →
      ∀ line ∈ out.tail, ∃ id, line = formatLine id c.snap) := by
  refine ⟨fun ids snaps h => resolveIDs_ok env c ids snaps h,
    fun rawIDs hn => groupBySnaps_replicate c.snap rawIDs hn, ?_⟩
  intro out hout line hline
  obtain ⟨ids, snaps, exclude, h1, h2, h3⟩ :=
    runLines_ok_decomp hc env gmin gmax c out hout
  have hsnaps := resolveIDs_ok env c ids snaps h1
  rw [h3, List.tail_cons, goMultiply_eq] at hline
  obtain ⟨l', hl', hrep⟩ := List.mem_flatMap.mp hline
  have hline' : line = l' := List.eq_of_mem_replicate hrep
  rw [goFilter_eq] at hl'
  obtain ⟨p, hp, hpe⟩ := List.mem_map.mp hl'
  have hpz : p ∈ (formatCols ids snaps).zip exclude := List.mem_of_mem_filter hp
  have hfst : p.1 ∈ formatCols ids snaps := (List.of_mem_zip hpz).1
  rw [hsnaps, formatCols, zip_replicate_self, List.map_map] at hfst
  obtain ⟨id, hid, hfe⟩ := List.mem_map.mp hfst
  refine ⟨id, ?_⟩
  rw [hline', ← hpe, ← hfe]
  rfl

/-- C10 witness: with IDs `[9, 7]` at snapshot 10, the snapshot list
is `[10, 10]`, the grouping is the single group at key 10, and a data
row of the successful run carries snapshot 10. -/
theorem c10_witness :
    ([10, 10] : List Int) = List.replicate ([9, 7] : List Int).length (10 : Int) ∧
    groupBySnaps [9, 7] (List.replicate 2 10) = [(10, memFrom 0 [9, 7])] ∧
    ∃ id, "9 10" = formatLine id 10 := by
  have h := c10_single_snapshot hcZero env3 0 100 c10cfg
  refine ⟨h.1 [9, 7] [10, 10] (by decide), ?_, ?_⟩
  · exact h.2.1 [9, 7] (by decide)
  · exact h.2.2 [commentString, "9 10", "7 10"] (by decide) "9 10" (by decide)

end Shellfish
